import Mathlib

/-!
# Verification of the P2-Scraping book-catalog scraper

Shallow embedding of `src/main.py`, `src/scraping/get_books_data.py` and
`src/scraping/utils.py`. External collaborators (the HTTP client, the HTML
parser `bs4`, `urllib.parse.urljoin`/`urlparse`, the filesystem and the
`csv` module's file handle) are modelled explicitly:

* an HTTP fetch outcome is `Option HttpResp` (`none` = `requests` raised a
  `RequestException` during `GET`); `raise_for_status` raises for any status
  in 400..599;
* a parsed page is a structure holding exactly the pieces of the document
  the code queries, with `Option` for elements whose `find` may return
  `None` (accessing an attribute of such a `None` raises in Python);
* `urljoin` and the scheme-plus-host origin extraction of `urlparse` are
  passed in as function parameters, since they are stdlib collaborators;
* a written file is a `(path, content)` pair returned by the function that
  performs the write.

Python exceptions that a function does not catch are modelled with
`Except`: an `.error` value is an exception propagating to the caller.
-/

namespace Scraping

/-- Bytes of an HTTP response body. -/
abbrev Bytes := List Nat

/-- An HTTP response: status code and raw body, as seen through `requests`. -/
structure HttpResp where
  status : Nat
  body : Bytes
deriving DecidableEq

/-- Model of `response.raise_for_status()`: it raises `HTTPError` exactly for 4xx/5xx. -/
def isErrorStatus (s : Nat) : Bool :=
  decide (400 ≤ s) && decide (s < 600)

/-- Model of Python `str.strip()` with no argument: remove leading and
trailing whitespace characters. -/
def pyStrip (s : String) : String :=
  ⟨((s.data.dropWhile Char.isWhitespace).reverse.dropWhile Char.isWhitespace).reverse⟩

namespace Utils

/-- The character class of the regex `[<>:"/\\|?*]` in
`src/scraping/utils.py`, `sanitize_filename`. -/
def invalidChar (c : Char) : Bool :=
  c = '<' || c = '>' || c = ':' || c = '"' || c = '/' || c = '\\' || c = '|' || c = '?' || c = '*'

/-- Model of `utils.sanitize_filename`: `re.sub` of the class `[<>:"/\\|?*]` with the
empty string, i.e. every occurrence of a character of the class is removed
and all other characters are kept in order. -/
def sanitize_filename (filename : String) : String :=
  ⟨filename.data.filter (fun c => !invalidChar c)⟩

/-- Model of `utils.extract_soup`: GET the URL (outcome `resp`); a raised
`RequestException` (network failure, or an error status via
`raise_for_status`) is caught and yields `None`; otherwise the body is
parsed by BeautifulSoup (the collaborator `parse`). -/
def extract_soup {Doc : Type} (parse : Bytes → Doc) (resp : Option HttpResp) : Option Doc :=
  match resp with
  | none => none
  | some r => if isErrorStatus r.status then none else some (parse r.body)

end Utils

namespace GetBooksData

/-- The character class of the regex `[<>:"/\\|?*]` in
`src/scraping/get_books_data.py`, `sanitize_filename`. -/
def invalidChar (c : Char) : Bool :=
  c = '<' || c = '>' || c = ':' || c = '"' || c = '/' || c = '\\' || c = '|' || c = '?' || c = '*'

/-- Model of `get_books_data.sanitize_filename`: `re.sub(r'[<>:"/\\|?*]', '', filename)`. -/
def sanitize_filename (filename : String) : String :=
  ⟨filename.data.filter (fun c => !invalidChar c)⟩

/-- Model of `get_books_data.extract_soup`: textually identical to
`utils.extract_soup`. -/
def extract_soup {Doc : Type} (parse : Bytes → Doc) (resp : Option HttpResp) : Option Doc :=
  match resp with
  | none => none
  | some r => if isErrorStatus r.status then none else some (parse r.body)

/-- The home page as queried by `get_categories`: when the `ul.nav.nav-list`
block is present, `navEntries` holds, in document order, the `href` of the
`a` child of each of its `li` entries (the code reads
`category.find('a')['href']`); `none` models an absent block, for which
`find` returns `None` and `.find_all` on it raises `AttributeError`. -/
structure HomePage where
  navEntries : Option (List String)

/-- Model of `get_books_data.get_categories`, with the result of `extract_soup` at
each URL supplied by the environment `soupOf` and `urllib.parse.urljoin` by
`join`. A fetch failure yields `[]`; an absent navigation block raises
`AttributeError` inside the `try`, which is caught and yields `[]`;
otherwise the first entry is dropped (the `[1:]` slice) and each remaining
entry's href is joined against the home URL. -/
def get_categories (soupOf : String → Option HomePage) (join : String → String → String)
    (url : String) : List String :=
  match soupOf url with
  | none => []
  | some soup =>
    match soup.navEntries with
    | none => []
    | some entries => (entries.drop 1).map (fun href => join url href)

/-- A category listing page as queried by `get_books_in_category`:
`articleHrefs` holds, in document order, the `href` of each
`article.product_pod`'s `h3 > a`; `nextHref` holds the `href` of the `a`
inside the `li.next` pagination control when that control is present. -/
structure ListingPage where
  articleHrefs : List String
  nextHref : Option String

/-- Fuel-indexed unfolding of the `while category_url:` loop of
`get_books_in_category`. `none` means the loop has not exited after `fuel`
iterations (the Python loop may run forever on a cyclic `next` chain);
`some urls` means the loop exited and the function returned `urls`. Each
iteration fetches the cursor page (`break` with the accumulator on fetch
failure), appends every article href joined against the current page URL,
and moves the cursor to the joined `next` href, or to `None` when the
`li.next` control is absent. -/
def getBooksLoop (soupOf : String → Option ListingPage) (join : String → String → String) :
    Nat → Option String → List String → Option (List String)
  | 0, _, _ => none
  | _ + 1, none, acc => some acc
  | fuel + 1, some url, acc =>
    match soupOf url with
    | none => some acc
    | some soup =>
      match soup.nextHref with
      | some href =>
          getBooksLoop soupOf join fuel (some (join url href))
            (acc ++ soup.articleHrefs.map (fun h => join url h))
      | none =>
          getBooksLoop soupOf join fuel none
            (acc ++ soup.articleHrefs.map (fun h => join url h))

/-- Model of `get_books_data.get_books_in_category`, starting the loop at the
category URL with an empty accumulator. -/
def get_books_in_category (soupOf : String → Option ListingPage)
    (join : String → String → String) (fuel : Nat) (category_url : String) :
    Option (List String) :=
  getBooksLoop soupOf join fuel (some category_url) []

/-- The chain of (URL, page) pairs the paginator's loop processes: it ends
at a cursor of `None`, at a failed fetch, or when the fuel runs out. -/
def visitedPages (soupOf : String → Option ListingPage) (join : String → String → String) :
    Nat → Option String → List (String × ListingPage)
  | 0, _ => []
  | _ + 1, none => []
  | fuel + 1, some url =>
    match soupOf url with
    | none => []
    | some soup =>
        (url, soup) ::
          visitedPages soupOf join fuel (soup.nextHref.map (fun href => join url href))

/-- The cursor update performed by one iteration of the paginator's loop;
a failed fetch is folded into the terminal cursor `none`. -/
def stepCursor (soupOf : String → Option ListingPage) (join : String → String → String) :
    Option String → Option String
  | none => none
  | some url =>
    match soupOf url with
    | none => none
    | some soup => soup.nextHref.map (fun href => join url href)

/-- A cursor at which the loop is about to stop: the cursor is `None`, the
fetch of the cursor page fails, or the fetched page has no `li.next`
control (the normal terminal condition). -/
def loopTerminal (soupOf : String → Option ListingPage) : Option String → Bool
  | none => true
  | some url =>
    match soupOf url with
    | none => true
    | some soup => soup.nextHref.isNone

/-- An item detail page, holding exactly the pieces `extract_book_info`
queries. Each `Option` is `none` when the corresponding element is absent
from the page, in which case the Python attribute, key or index access on
the `find` result raises an exception. -/
structure BookPage where
  h1Text : Option String
  upcText : Option String
  priceInclText : Option String
  priceExclText : Option String
  availabilityText : Option String
  descriptionContent : Option String
  breadcrumbTexts : Option (List String)
  ratingClasses : Option (List String)
  imageSrc : Option String
deriving DecidableEq

/-- Model of `get_books_data.download_image`: GET the image URL; a raised
`RequestException` — including an error status surfaced by
`raise_for_status` — is caught, logged, and nothing is written; with
status 200 the body is written to
`images/<sanitized category>/<sanitized image name>` (`os.path.join` with
relative POSIX components is `/`-concatenation); any other non-error
status only logs. The result is the file write performed, if any. -/
def download_image (imgResp : Option HttpResp) (category_name : String)
    (image_name : String) : Option (String × Bytes) :=
  match imgResp with
  | none => none
  | some r =>
    if isErrorStatus r.status then none
    else if r.status = 200 then
      some ("images" ++ "/" ++ sanitize_filename category_name ++ "/"
              ++ sanitize_filename image_name, r.body)
    else none

/-- The record `extract_book_info` builds: one plain text value per key, in
the order the keys are assigned in the source. -/
structure BookInfo where
  title : String
  upc : String
  price_incl_tax : String
  price_excl_tax : String
  availability : String
  description : String
  category : String
  rating : String
  image_url : String
  image_path : String
deriving DecidableEq

/-- Model of `get_books_data.extract_book_info`. The page-fetch outcome is
`page` (the `extract_soup` result) and the image-fetch outcome `imgResp`;
`join` is `urljoin` and `origin` the scheme-plus-netloc computed from
`urlparse(book_url)`. A result `.error f` is an uncaught Python exception,
raised while reading the missing element `f`, propagating to the caller —
the function body has no `try`/`except`; `.ok none` is the `{}` returned
when the page fetch failed; `.ok (some (record, writes))` is a returned
record together with the file writes performed by the `download_image`
call (empty when the image download failed). Python `str.strip` is
modelled by `pyStrip` and the `[1:]` slice by `String.drop 1`. -/
def extract_book_info (join : String → String → String) (origin : String → String)
    (book_url : String) (page : Option BookPage) (imgResp : Option HttpResp) :
    Except String (Option (BookInfo × List (String × Bytes))) :=
  match page with
  | none => .ok none
  | some soup =>
    match soup.h1Text with
    | none => .error "h1"
    | some titleText =>
    match soup.upcText with
    | none => .error "UPC"
    | some upcText =>
    match soup.priceInclText with
    | none => .error "price-incl-tax"
    | some priceInclText =>
    match soup.priceExclText with
    | none => .error "price-excl-tax"
    | some priceExclText =>
    match soup.availabilityText with
    | none => .error "availability"
    | some availabilityText =>
    match soup.descriptionContent with
    | none => .error "description-meta"
    | some descriptionContent =>
    match soup.breadcrumbTexts with
    | none => .error "breadcrumb"
    | some breadcrumbTexts =>
    match breadcrumbTexts.get? 2 with
    | none => .error "breadcrumb-li-2"
    | some categoryText =>
    match soup.ratingClasses with
    | none => .error "star-rating"
    | some ratingClasses =>
    match ratingClasses.get? 1 with
    | none => .error "star-rating-class-1"
    | some rating =>
    match soup.imageSrc with
    | none => .error "image-src"
    | some imageSrc =>
      let title := pyStrip titleText
      let category := pyStrip categoryText
      let absolute_image_url := join (origin book_url) imageSrc
      let image_name := title ++ ".jpg"
      let writes := (download_image imgResp category image_name).toList
      .ok (some
        ({ title := title
           upc := pyStrip upcText
           price_incl_tax := (pyStrip priceInclText).drop 1
           price_excl_tax := (pyStrip priceExclText).drop 1
           availability := pyStrip availabilityText
           description := pyStrip descriptionContent
           category := category
           rating := rating
           image_url := absolute_image_url
           image_path := "images" ++ "/" ++ category ++ "/" ++ image_name },
         writes))

/-- Every element access of steps 2–4 of `extract_book_info` succeeds on
this page: all queried elements are present, the breadcrumb has at least
three entries and the star-rating class list at least two tokens. -/
def requiredOk (soup : BookPage) : Bool :=
  soup.h1Text.isSome && soup.upcText.isSome && soup.priceInclText.isSome
    && soup.priceExclText.isSome && soup.availabilityText.isSome
    && soup.descriptionContent.isSome
    && (match soup.breadcrumbTexts with
        | none => false
        | some lis => decide (2 < lis.length))
    && (match soup.ratingClasses with
        | none => false
        | some classes => decide (1 < classes.length))
    && soup.imageSrc.isSome

/-- The record `extract_book_info` returns on a page satisfying
`requiredOk`, written field by field (defaults are never reached under
`requiredOk`). -/
def recordOf (join : String → String → String) (origin : String → String)
    (book_url : String) (soup : BookPage) : BookInfo :=
  { title := pyStrip (soup.h1Text.getD "")
    upc := pyStrip (soup.upcText.getD "")
    price_incl_tax := (pyStrip (soup.priceInclText.getD "")).drop 1
    price_excl_tax := (pyStrip (soup.priceExclText.getD "")).drop 1
    availability := pyStrip (soup.availabilityText.getD "")
    description := pyStrip (soup.descriptionContent.getD "")
    category := pyStrip ((soup.breadcrumbTexts.getD []).getD 2 "")
    rating := (soup.ratingClasses.getD []).getD 1 ""
    image_url := join (origin book_url) (soup.imageSrc.getD "")
    image_path := "images" ++ "/" ++ pyStrip ((soup.breadcrumbTexts.getD []).getD 2 "")
      ++ "/" ++ (pyStrip (soup.h1Text.getD "") ++ ".jpg") }

/-- True when the `Except` result models an uncaught exception. -/
def raisesError {α : Type} (r : Except String α) : Bool :=
  match r with
  | .error _ => true
  | .ok _ => false

/-- True when `extract_book_info` returned the empty record `{}`. -/
def returnsEmpty (r : Except String (Option (BookInfo × List (String × Bytes)))) : Bool :=
  match r with
  | .ok none => true
  | _ => false

/-- True when the image GET raises in `download_image`: a network failure
or an error status via `raise_for_status` (e.g. a 404). -/
def imgFetchFails (imgResp : Option HttpResp) : Bool :=
  match imgResp with
  | none => true
  | some r => isErrorStatus r.status

/-- The `fieldnames` list of `write_to_csv`, in source order. -/
def fieldnames : List String :=
  ["title", "upc", "price_incl_tax", "price_excl_tax", "availability",
   "description", "category", "rating", "image_url", "image_path"]

/-- The row `csv.DictWriter.writerows` emits for one record: its values in
`fieldnames` order. -/
def bookToRow (b : BookInfo) : List String :=
  [b.title, b.upc, b.price_incl_tax, b.price_excl_tax, b.availability,
   b.description, b.category, b.rating, b.image_url, b.image_path]

/-- Characters that force quoting in the `csv` module's default dialect
(delimiter, quote character, and the characters of the `\r\n` row
terminator). -/
def isCsvSpecial (c : Char) : Bool :=
  c = ',' || c = '"' || c = '\r' || c = '\n'

/-- One field as the `csv` writer emits it: quoted, with inner quote
characters doubled, exactly when the field contains a special character
(`QUOTE_MINIMAL`). -/
def encodeField (f : List Char) : List Char :=
  if f.any isCsvSpecial then
    '"' :: (f.flatMap (fun c => if c = '"' then ['"', '"'] else [c])) ++ ['"']
  else f

/-- One row as the `csv` writer emits it: encoded fields joined by the
delimiter, then the `\r\n` terminator. -/
def encodeRow : List (List Char) → List Char
  | [] => ['\r', '\n']
  | [f] => encodeField f ++ ['\r', '\n']
  | f :: fs => encodeField f ++ ',' :: encodeRow fs

/-- A whole CSV file body: the emitted rows, in order. -/
def encodeCsv (rows : List (List (List Char))) : List Char :=
  rows.flatMap encodeRow

/-- Model of `get_books_data.write_to_csv`: opens `<category_name>.csv`
for writing (truncating), writes the header row, then one row per record
in input order, in the `csv` module's default dialect. The result is the
file name and the file's full content. -/
def write_to_csv (category_name : String) (books : List BookInfo) : String × String :=
  (category_name ++ ".csv",
   ⟨encodeCsv ((fieldnames :: books.map bookToRow).map
      (fun row => row.map String.data))⟩)

/-- States of the CSV reader: at the start of a field, inside an unquoted
field, inside a quoted field, just after a quote character inside a quoted
field, or just after a `\r` that ended a row. -/
inductive CsvSt where
  | fieldStart
  | unquoted
  | quoted
  | afterQuote
  | afterCR
deriving DecidableEq

/-- What the CSV reader yields at end of input: the pending field and row,
if any, then all accumulated rows (accumulators are kept reversed). -/
def csvFinish (st : CsvSt) (facc : List Char) (racc : List (List Char))
    (rows : List (List (List Char))) : List (List (List Char)) :=
  match st with
  | .afterCR => rows.reverse
  | .fieldStart =>
    match racc with
    | [] => rows.reverse
    | _ => ((facc.reverse :: racc).reverse :: rows).reverse
  | _ => ((facc.reverse :: racc).reverse :: rows).reverse

/-- A character-at-a-time CSV reader for the default dialect, modelling
`csv.reader` on the inputs the writer produces: `facc` is the current
field (reversed), `racc` the current row (reversed), `rows` the rows read
so far (reversed). -/
def csvParseAux : CsvSt → List Char → List Char → List (List Char) →
    List (List (List Char)) → List (List (List Char))
  | st, [], facc, racc, rows => csvFinish st facc racc rows
  | st, c :: rest, facc, racc, rows =>
    match st with
    | .fieldStart =>
      if c = '"' then csvParseAux .quoted rest [] racc rows
      else if c = ',' then csvParseAux .fieldStart rest [] ([] :: racc) rows
      else if c = '\r' then
        csvParseAux .afterCR rest [] [] ((([] : List Char) :: racc).reverse :: rows)
      else if c = '\n' then
        csvParseAux .fieldStart rest [] [] ((([] : List Char) :: racc).reverse :: rows)
      else csvParseAux .unquoted rest [c] racc rows
    | .unquoted =>
      if c = ',' then csvParseAux .fieldStart rest [] (facc.reverse :: racc) rows
      else if c = '\r' then
        csvParseAux .afterCR rest [] [] ((facc.reverse :: racc).reverse :: rows)
      else if c = '\n' then
        csvParseAux .fieldStart rest [] [] ((facc.reverse :: racc).reverse :: rows)
      else csvParseAux .unquoted rest (c :: facc) racc rows
    | .quoted =>
      if c = '"' then csvParseAux .afterQuote rest facc racc rows
      else csvParseAux .quoted rest (c :: facc) racc rows
    | .afterQuote =>
      if c = '"' then csvParseAux .quoted rest ('"' :: facc) racc rows
      else if c = ',' then csvParseAux .fieldStart rest [] (facc.reverse :: racc) rows
      else if c = '\r' then
        csvParseAux .afterCR rest [] [] ((facc.reverse :: racc).reverse :: rows)
      else if c = '\n' then
        csvParseAux .fieldStart rest [] [] ((facc.reverse :: racc).reverse :: rows)
      else csvParseAux .unquoted rest (c :: facc) racc rows
    | .afterCR =>
      if c = '\n' then csvParseAux .fieldStart rest [] [] rows
      else csvParseAux .unquoted rest [c] [] rows

/-- Reading a CSV file body back: the rows of fields, as strings. -/
def csvParse (s : String) : List (List String) :=
  (csvParseAux .fieldStart s.data [] [] []).map (fun row => row.map (fun f => ⟨f⟩))

end GetBooksData

/-- A join collaborator for concrete witnesses: treats every href as
already absolute. -/
def joinW : String → String → String := fun _ rel => rel

/-- A home-page fetch environment whose fetch always fails. -/
def homeFailW : String → Option GetBooksData.HomePage := fun _ => none

/-- A home-page fetch environment whose page has no navigation block. -/
def homeNoNavW : String → Option GetBooksData.HomePage :=
  fun _ => some { navEntries := none }

/-- A home-page fetch environment with a three-entry navigation block. -/
def homeOkW : String → Option GetBooksData.HomePage :=
  fun _ => some { navEntries := some ["books", "travel", "mystery"] }

/-- A listing environment: page `p1` links to `p2`, whose `next` link `p3`
fails to fetch; the item `a1` appears on both pages. -/
def listingW : String → Option GetBooksData.ListingPage := fun u =>
  if u = "p1" then some { articleHrefs := ["a1", "a2"], nextHref := some "p2" }
  else if u = "p2" then some { articleHrefs := ["a1"], nextHref := some "p3" }
  else none

/-- A listing environment forming a finite two-page chain: `p2` has no
`next` control. -/
def listingEndW : String → Option GetBooksData.ListingPage := fun u =>
  if u = "p1" then some { articleHrefs := ["a1"], nextHref := some "p2" }
  else if u = "p2" then some { articleHrefs := ["b1"], nextHref := none }
  else none

/-- An origin collaborator for concrete witnesses: a fixed scheme+netloc. -/
def originW : String → String := fun _ => "http://books.example"

/-- A well-formed item page used by concrete witnesses. -/
def pageFullW : GetBooksData.BookPage :=
  { h1Text := some " It "
    upcText := some " abc123 "
    priceInclText := some " £51.77 "
    priceExclText := some "£48.00"
    availabilityText := some "In stock (3 available)"
    descriptionContent := some "A scary book"
    breadcrumbTexts := some ["Home", "Books", " Horror ", "It"]
    ratingClasses := some ["star-rating", "Three"]
    imageSrc := some "../../media/it.jpg" }

/-- The witness item page with the `h1` title element missing. -/
def pageNoTitleW : GetBooksData.BookPage :=
  { pageFullW with h1Text := none }

/-- A concrete record whose fields exercise CSV quoting: delimiter, quote
character and a CRLF inside field values. -/
def bookW : GetBooksData.BookInfo :=
  { title := "a,b"
    upc := "u\"x"
    price_incl_tax := "51.77"
    price_excl_tax := "48.00"
    availability := "In stock"
    description := "line one\r\nline two"
    category := "Horror"
    rating := "Three"
    image_url := "http://books.example/media/it.jpg"
    image_path := "images/Horror/a,b.jpg" }

end Scraping

namespace Scraping

/-- The list `visitedPages` is empty once the cursor is `None`, at any fuel. -/
theorem visitedPages_none (soupOf : String → Option GetBooksData.ListingPage)
    (join : String → String → String) (fuel : Nat) :
    GetBooksData.visitedPages soupOf join fuel none = [] := by
  cases fuel <;> rfl

/-- When the paginator's loop returns, its result is the accumulator
followed by the per-page joined article hrefs of the visited chain. -/
theorem getBooksLoop_eq_visited (soupOf : String → Option GetBooksData.ListingPage)
    (join : String → String → String) :
    ∀ (fuel : Nat) (cursor : Option String) (acc l : List String),
      GetBooksData.getBooksLoop soupOf join fuel cursor acc = some l →
      l = acc ++ (GetBooksData.visitedPages soupOf join fuel cursor).flatMap
            (fun p => p.2.articleHrefs.map (fun href => join p.1 href)) := by
  intro fuel
  induction fuel with
  | zero =>
      intro cursor acc l h
      simp [GetBooksData.getBooksLoop] at h
  | succ fuel ih =>
      intro cursor acc l h
      cases cursor with
      | none =>
          simp [GetBooksData.getBooksLoop] at h
          simp [GetBooksData.visitedPages, h]
      | some url =>
          cases hsoup : soupOf url with
          | none =>
              simp [GetBooksData.getBooksLoop, hsoup] at h
              simp [GetBooksData.visitedPages, hsoup, h]
          | some soup =>
              cases hnext : soup.nextHref with
              | none =>
                  simp [GetBooksData.getBooksLoop, hsoup, hnext] at h
                  have := ih none _ l h
                  simp [visitedPages_none] at this
                  simp [GetBooksData.visitedPages, hsoup, hnext, this,
                    visitedPages_none]
              | some href =>
                  simp [GetBooksData.getBooksLoop, hsoup, hnext] at h
                  have := ih (some (join url href)) _ l h
                  simp [GetBooksData.visitedPages, hsoup, hnext, this]

/-- If the loop's cursor reaches a stopping point within `n` steps, the
loop exits within `n + 2` iterations, from any accumulator. -/
theorem getBooksLoop_isSome_of_terminal
    (soupOf : String → Option GetBooksData.ListingPage)
    (join : String → String → String) :
    ∀ (n : Nat) (cursor : Option String) (acc : List String),
      GetBooksData.loopTerminal soupOf
          ((GetBooksData.stepCursor soupOf join)^[n] cursor) = true →
      (GetBooksData.getBooksLoop soupOf join (n + 2) cursor acc).isSome = true := by
  intro n
  induction n with
  | zero =>
      intro cursor acc h
      cases cursor with
      | none => simp [GetBooksData.getBooksLoop]
      | some url =>
          cases hsoup : soupOf url with
          | none => simp [GetBooksData.getBooksLoop, hsoup]
          | some soup =>
              have hnext : soup.nextHref = none := by
                have h0 := h
                simp [GetBooksData.loopTerminal, hsoup, Option.isNone_iff_eq_none] at h0
                exact h0
              simp [GetBooksData.getBooksLoop, hsoup, hnext]
  | succ n ih =>
      intro cursor acc h
      rw [Function.iterate_succ_apply] at h
      cases cursor with
      | none => simp [GetBooksData.getBooksLoop]
      | some url =>
          cases hsoup : soupOf url with
          | none => simp [GetBooksData.getBooksLoop, hsoup]
          | some soup =>
              have hstep : GetBooksData.stepCursor soupOf join (some url)
                  = soup.nextHref.map (fun href => join url href) := by
                simp [GetBooksData.stepCursor, hsoup]
              cases hnext : soup.nextHref with
              | none =>
                  simp [GetBooksData.getBooksLoop, hsoup, hnext]
              | some href =>
                  rw [hstep, hnext] at h
                  have := ih (some (join url href))
                    (acc ++ soup.articleHrefs.map (fun h => join url h)) h
                  simpa [GetBooksData.getBooksLoop, hsoup, hnext] using this

/-- C3: on a home page with `N` navigation entries, `get_categories`
returns exactly the last `N − 1` entry hrefs, each joined against the home
URL (so `N − 1` URLs, first entry excluded); on a failed fetch or an absent
navigation block it returns the empty list rather than failing. -/
theorem C3_get_categories_spec
    (soupFail soupNoNav soupOk : String → Option GetBooksData.HomePage)
    (join : String → String → String) (url : String)
    (page : GetBooksData.HomePage) (entries : List String)
    (hFail : soupFail url = none)
    (hNoNav : soupNoNav url = some { navEntries := none })
    (hOk : soupOk url = some page) (hNav : page.navEntries = some entries) :
    GetBooksData.get_categories soupFail join url = []
    ∧ GetBooksData.get_categories soupNoNav join url = []
    ∧ GetBooksData.get_categories soupOk join url
        = (entries.drop 1).map (fun href => join url href)
    ∧ (GetBooksData.get_categories soupOk join url).length = entries.length - 1 := by
  refine ⟨?_, ?_, ?_, ?_⟩
  · simp [GetBooksData.get_categories, hFail]
  · simp [GetBooksData.get_categories, hNoNav]
  · simp [GetBooksData.get_categories, hOk, hNav]
  · simp [GetBooksData.get_categories, hOk, hNav]

/-- Witness for C3: a concrete three-entry navigation block yields the two
non-first entries; failing and navigation-less home pages yield `[]`. -/
theorem C3_get_categories_witness :
    GetBooksData.get_categories homeFailW joinW "home" = []
    ∧ GetBooksData.get_categories homeNoNavW joinW "home" = []
    ∧ GetBooksData.get_categories homeOkW joinW "home"
        = ((["books", "travel", "mystery"] : List String).drop 1).map
            (fun href => joinW "home" href)
    ∧ (GetBooksData.get_categories homeOkW joinW "home").length
        = (["books", "travel", "mystery"] : List String).length - 1 :=
  C3_get_categories_spec homeFailW homeNoNavW homeOkW joinW "home"
    { navEntries := some ["books", "travel", "mystery"] }
    ["books", "travel", "mystery"] rfl rfl rfl rfl

/-- C4: whenever the paginator returns, its output is the concatenation,
over the pages actually processed (in traversal order, cut short at a
failed fetch), of that page's article hrefs in document order, each joined
against the URL of the page on which it appeared — hence page order then
document order, no deduplication, and a mid-traversal fetch failure yields
exactly the URLs accumulated from the pages already processed. -/
theorem C4_books_page_then_document_order
    (soupOf : String → Option GetBooksData.ListingPage)
    (join : String → String → String) (fuel : Nat) (category_url : String)
    (l : List String)
    (h : GetBooksData.get_books_in_category soupOf join fuel category_url = some l) :
    l = (GetBooksData.visitedPages soupOf join fuel (some category_url)).flatMap
          (fun p => p.2.articleHrefs.map (fun href => join p.1 href)) := by
  have h2 := getBooksLoop_eq_visited soupOf join fuel (some category_url) [] l h
  simp only [List.nil_append] at h2
  exact h2

/-- Witness for C4: a two-page chain whose third page fails to fetch; the
duplicate `a1` is kept, and the result matches the visited-pages
concatenation. -/
theorem C4_books_witness :
    (["a1", "a2", "a1"] : List String)
      = (GetBooksData.visitedPages listingW joinW 9 (some "p1")).flatMap
          (fun p => p.2.articleHrefs.map (fun href => joinW p.1 href)) :=
  C4_books_page_then_document_order listingW joinW 9 "p1" ["a1", "a2", "a1"] (by decide)

/-- C5: if following the loop's cursor from the category URL reaches,
within `n` steps, a page with no `next` control (the normal terminal
condition) or a cursor ended by a failed fetch, then
`get_books_in_category` terminates: `n + 2` loop iterations suffice for
the loop to exit with a result. -/
theorem C5_paginator_terminates
    (soupOf : String → Option GetBooksData.ListingPage)
    (join : String → String → String) (n : Nat) (category_url : String)
    (h : GetBooksData.loopTerminal soupOf
          ((GetBooksData.stepCursor soupOf join)^[n] (some category_url)) = true) :
    (GetBooksData.get_books_in_category soupOf join (n + 2) category_url).isSome
      = true :=
  getBooksLoop_isSome_of_terminal soupOf join n (some category_url) [] h

/-- Witness for C5: a two-page chain ending at a page without a `next`
control terminates within the fuel bound. -/
theorem C5_paginator_witness :
    (GetBooksData.get_books_in_category listingEndW joinW (1 + 2) "p1").isSome
      = true :=
  C5_paginator_terminates listingEndW joinW 1 "p1" (by decide)

/-- On a page where every required element is present, `extract_book_info`
returns the complete record `recordOf`, together with the write performed
by `download_image`, and raises nothing. -/
theorem extract_ok_of_requiredOk (join : String → String → String)
    (origin : String → String) (book_url : String) (imgResp : Option HttpResp)
    (soup : GetBooksData.BookPage) (h : GetBooksData.requiredOk soup = true) :
    GetBooksData.extract_book_info join origin book_url (some soup) imgResp
      = .ok (some (GetBooksData.recordOf join origin book_url soup,
          (GetBooksData.download_image imgResp
            (GetBooksData.recordOf join origin book_url soup).category
            ((GetBooksData.recordOf join origin book_url soup).title ++ ".jpg")).toList)) := by
  obtain ⟨h1, upc, pin, pex, av, de, bc, rc, im⟩ := soup
  simp only [GetBooksData.requiredOk, Bool.and_eq_true, Option.isSome_iff_exists] at h
  obtain ⟨⟨⟨⟨⟨⟨⟨⟨⟨t, ht⟩, u, hu⟩, pi, hpi⟩, pe, hpe⟩, a, ha⟩, d, hd⟩, hbc⟩, hrc⟩, i, hi⟩ := h
  subst ht hu hpi hpe ha hd hi
  cases bc with
  | none => simp at hbc
  | some lis =>
    cases rc with
    | none => simp at hrc
    | some cls =>
      simp only [decide_eq_true_eq] at hbc hrc
      cases hg2 : lis[2]? with
      | none =>
          have := List.getElem?_eq_none_iff.mp hg2
          omega
      | some c2 =>
        cases hg1 : cls[1]? with
        | none =>
            have := List.getElem?_eq_none_iff.mp hg1
            omega
        | some c1 =>
            simp [GetBooksData.extract_book_info, GetBooksData.recordOf,
              List.getD, hg2, hg1]

/-- On a page with some required element missing, `extract_book_info`
raises: the result is an uncaught exception, not a record. -/
theorem extract_error_of_not_requiredOk (join : String → String → String)
    (origin : String → String) (book_url : String) (imgResp : Option HttpResp)
    (soup : GetBooksData.BookPage) (h : GetBooksData.requiredOk soup = false) :
    GetBooksData.raisesError
      (GetBooksData.extract_book_info join origin book_url (some soup) imgResp) = true := by
  obtain ⟨h1, upc, pin, pex, av, de, bc, rc, im⟩ := soup
  cases h1 with
  | none => rfl
  | some t =>
  cases upc with
  | none => rfl
  | some u =>
  cases pin with
  | none => rfl
  | some pi =>
  cases pex with
  | none => rfl
  | some pe =>
  cases av with
  | none => rfl
  | some a =>
  cases de with
  | none => rfl
  | some d =>
  cases bc with
  | none => rfl
  | some lis =>
  cases rc with
  | none =>
      cases hg2 : lis[2]? with
      | none => simp [GetBooksData.extract_book_info, GetBooksData.raisesError, hg2]
      | some c2 => simp [GetBooksData.extract_book_info, GetBooksData.raisesError, hg2]
  | some cls =>
  cases im with
  | none =>
      cases hg2 : lis[2]? with
      | none => simp [GetBooksData.extract_book_info, GetBooksData.raisesError, hg2]
      | some c2 =>
        cases hg1 : cls[1]? with
        | none =>
            simp [GetBooksData.extract_book_info, GetBooksData.raisesError, hg2, hg1]
        | some c1 =>
            simp [GetBooksData.extract_book_info, GetBooksData.raisesError, hg2, hg1]
  | some i =>
  cases hg2 : lis[2]? with
  | none => simp [GetBooksData.extract_book_info, GetBooksData.raisesError, hg2]
  | some c2 =>
  cases hg1 : cls[1]? with
  | none => simp [GetBooksData.extract_book_info, GetBooksData.raisesError, hg2, hg1]
  | some c1 =>
      exfalso
      have hl2 : 2 < lis.length := by
        rcases Nat.lt_or_ge 2 lis.length with hlt | hge
        · exact hlt
        · rw [List.getElem?_eq_none hge] at hg2
          exact Option.noConfusion hg2
      have hl1 : 1 < cls.length := by
        rcases Nat.lt_or_ge 1 cls.length with hlt | hge
        · exact hlt
        · rw [List.getElem?_eq_none hge] at hg1
          exact Option.noConfusion hg1
      simp [GetBooksData.requiredOk, hl2, hl1] at h

/-- C1 counterexample: on a concrete detail page whose `h1` title element
is missing (all other required elements present), `extract_book_info` does
not catch the parse failure and does not return Empty: the exception
propagates to the caller. -/
theorem C1_counterexample_uncaught_parse_failure :
    GetBooksData.raisesError (GetBooksData.extract_book_info joinW originW
        "http://books.example/b1" (some pageNoTitleW) none) = true
    ∧ GetBooksData.returnsEmpty (GetBooksData.extract_book_info joinW originW
        "http://books.example/b1" (some pageNoTitleW) none) = false :=
  ⟨rfl, rfl⟩

/-- C1 (amended): `extract_book_info` returns Empty exactly when the page
fetch fails; on a fetched page missing any required element of steps 2–4
the parse failure is not caught — the exception propagates to the caller —
and on a fetched page it never returns Empty, so no partially populated
record (and no Empty standing for one) is ever produced from a parse
failure. -/
theorem C1_amended_failure_policy (join : String → String → String)
    (origin : String → String) (book_url : String) (imgResp : Option HttpResp)
    (soupMissing soupAny : GetBooksData.BookPage)
    (hMissing : GetBooksData.requiredOk soupMissing = false) :
    GetBooksData.extract_book_info join origin book_url none imgResp = .ok none
    ∧ GetBooksData.raisesError
        (GetBooksData.extract_book_info join origin book_url (some soupMissing) imgResp)
          = true
    ∧ GetBooksData.returnsEmpty
        (GetBooksData.extract_book_info join origin book_url (some soupAny) imgResp)
          = false := by
  refine ⟨rfl, extract_error_of_not_requiredOk _ _ _ _ _ hMissing, ?_⟩
  by_cases hreq : GetBooksData.requiredOk soupAny = true
  · rw [GetBooksData.returnsEmpty.eq_def, extract_ok_of_requiredOk _ _ _ _ _ hreq]
  · have hra := extract_error_of_not_requiredOk join origin book_url imgResp soupAny
      (by simpa using hreq)
    cases hres : GetBooksData.extract_book_info join origin book_url (some soupAny) imgResp with
    | error e => simp [GetBooksData.returnsEmpty, hres]
    | ok v =>
        rw [hres] at hra
        simp [GetBooksData.raisesError] at hra

/-- Witness for C1 (amended): concrete fetch failure, concrete page with
the title element missing, and a concrete well-formed page. -/
theorem C1_amended_witness :
    GetBooksData.extract_book_info joinW originW "http://books.example/b1" none none
        = .ok none
    ∧ GetBooksData.raisesError
        (GetBooksData.extract_book_info joinW originW "http://books.example/b1"
          (some pageNoTitleW) none) = true
    ∧ GetBooksData.returnsEmpty
        (GetBooksData.extract_book_info joinW originW "http://books.example/b1"
          (some pageFullW) none) = false :=
  C1_amended_failure_policy joinW originW "http://books.example/b1" none
    pageNoTitleW pageFullW (by decide)

/-- C6: on a well-formed item page, the record `extract_book_info` returns
has `price_incl_tax` and `price_excl_tax` equal to the displayed (trimmed)
price texts with exactly their first character removed, kept as strings
with no numeric parsing. -/
theorem C6_price_first_char_dropped (join : String → String → String)
    (origin : String → String) (book_url : String) (imgResp : Option HttpResp)
    (soup : GetBooksData.BookPage) (sIncl sExcl : String)
    (hreq : GetBooksData.requiredOk soup = true)
    (hIncl : soup.priceInclText = some sIncl)
    (hExcl : soup.priceExclText = some sExcl) :
    GetBooksData.extract_book_info join origin book_url (some soup) imgResp
      = .ok (some (GetBooksData.recordOf join origin book_url soup,
          (GetBooksData.download_image imgResp
            (GetBooksData.recordOf join origin book_url soup).category
            ((GetBooksData.recordOf join origin book_url soup).title ++ ".jpg")).toList))
    ∧ (GetBooksData.recordOf join origin book_url soup).price_incl_tax
        = (pyStrip sIncl).drop 1
    ∧ (GetBooksData.recordOf join origin book_url soup).price_excl_tax
        = (pyStrip sExcl).drop 1 := by
  refine ⟨extract_ok_of_requiredOk _ _ _ _ _ hreq, ?_, ?_⟩
  · simp [GetBooksData.recordOf, hIncl]
  · simp [GetBooksData.recordOf, hExcl]

/-- Witness for C6: the concrete page displays ` £51.77 ` and `£48.00`;
the record keeps `51.77` and `48.00` as strings. -/
theorem C6_price_witness :
    GetBooksData.extract_book_info joinW originW "http://books.example/b1"
        (some pageFullW) none
      = .ok (some (GetBooksData.recordOf joinW originW "http://books.example/b1" pageFullW,
          (GetBooksData.download_image none
            (GetBooksData.recordOf joinW originW "http://books.example/b1" pageFullW).category
            ((GetBooksData.recordOf joinW originW "http://books.example/b1" pageFullW).title
              ++ ".jpg")).toList))
    ∧ (GetBooksData.recordOf joinW originW "http://books.example/b1" pageFullW).price_incl_tax
        = (pyStrip " £51.77 ").drop 1
    ∧ (GetBooksData.recordOf joinW originW "http://books.example/b1" pageFullW).price_excl_tax
        = (pyStrip "£48.00").drop 1 :=
  C6_price_first_char_dropped joinW originW "http://books.example/b1" none
    pageFullW " £51.77 " "£48.00" (by decide) rfl rfl

/-- C7: when the image fetch fails (network failure or error status such
as 404), `extract_book_info` still returns the complete record — so its
CSV row is still written — with `image_path` populated as computed from
the category and `<title>.jpg`, while `download_image` performs no file
write. -/
theorem C7_image_failure_record_complete (join : String → String → String)
    (origin : String → String) (book_url : String) (imgResp : Option HttpResp)
    (soup : GetBooksData.BookPage)
    (hreq : GetBooksData.requiredOk soup = true)
    (hImg : GetBooksData.imgFetchFails imgResp = true) :
    GetBooksData.extract_book_info join origin book_url (some soup) imgResp
      = .ok (some (GetBooksData.recordOf join origin book_url soup, []))
    ∧ GetBooksData.download_image imgResp
        (GetBooksData.recordOf join origin book_url soup).category
        ((GetBooksData.recordOf join origin book_url soup).title ++ ".jpg") = none
    ∧ (GetBooksData.recordOf join origin book_url soup).image_path
        = "images" ++ "/" ++ (GetBooksData.recordOf join origin book_url soup).category
            ++ "/" ++ ((GetBooksData.recordOf join origin book_url soup).title ++ ".jpg") := by
  have hdl : GetBooksData.download_image imgResp
      (GetBooksData.recordOf join origin book_url soup).category
      ((GetBooksData.recordOf join origin book_url soup).title ++ ".jpg") = none := by
    cases imgResp with
    | none => rfl
    | some r =>
        simp only [GetBooksData.imgFetchFails] at hImg
        simp [GetBooksData.download_image, hImg]
  refine ⟨?_, hdl, rfl⟩
  rw [extract_ok_of_requiredOk _ _ _ _ _ hreq, hdl]
  rfl

/-- Witness for C7: the image GET returns a 404 for the concrete
well-formed page; the full record is returned and nothing is written. -/
theorem C7_image_failure_witness :
    GetBooksData.extract_book_info joinW originW "http://books.example/b1"
        (some pageFullW) (some { status := 404, body := [7, 7] })
      = .ok (some (GetBooksData.recordOf joinW originW "http://books.example/b1" pageFullW, []))
    ∧ GetBooksData.download_image (some { status := 404, body := [7, 7] })
        (GetBooksData.recordOf joinW originW "http://books.example/b1" pageFullW).category
        ((GetBooksData.recordOf joinW originW "http://books.example/b1" pageFullW).title
          ++ ".jpg") = none
    ∧ (GetBooksData.recordOf joinW originW "http://books.example/b1" pageFullW).image_path
        = "images" ++ "/"
            ++ (GetBooksData.recordOf joinW originW "http://books.example/b1" pageFullW).category
            ++ "/"
            ++ ((GetBooksData.recordOf joinW originW "http://books.example/b1" pageFullW).title
              ++ ".jpg") :=
  C7_image_failure_record_complete joinW originW "http://books.example/b1"
    (some { status := 404, body := [7, 7] }) pageFullW (by decide) (by decide)

/-- Rebuilding a string from its character list is the identity. -/
theorem mk_data_eq (s : String) : (⟨s.data⟩ : String) = s := rfl

/-- The CSV reader consumes a run of non-special characters inside an
unquoted field, accumulating them. -/
theorem csvParseAux_unquoted_run (cs : List Char)
    (h : ∀ c ∈ cs, GetBooksData.isCsvSpecial c = false) (rest : List Char)
    (facc : List Char) (racc : List (List Char)) (rows : List (List (List Char))) :
    GetBooksData.csvParseAux .unquoted (cs ++ rest) facc racc rows
      = GetBooksData.csvParseAux .unquoted rest (cs.reverse ++ facc) racc rows := by
  induction cs generalizing facc with
  | nil => simp
  | cons c cs ih =>
      have hc := h c (by simp)
      simp only [GetBooksData.isCsvSpecial, Bool.or_eq_false_iff,
        decide_eq_false_iff_not] at hc
      obtain ⟨⟨⟨h1, h2⟩, h3⟩, h4⟩ := hc
      rw [List.cons_append]
      rw [GetBooksData.csvParseAux]
      simp only [h1, h2, h3, h4, if_false, reduceIte]
      rw [ih (fun x hx => h x (by simp [hx])) (c :: facc)]
      simp

/-- One reader step: a quote inside a quoted field moves to the
quote-seen state. -/
theorem csv_step_quoted_quote (rest : List Char) (facc : List Char)
    (racc : List (List Char)) (rows : List (List (List Char))) :
    GetBooksData.csvParseAux .quoted ('"' :: rest) facc racc rows
      = GetBooksData.csvParseAux .afterQuote rest facc racc rows := rfl

/-- One reader step: a second quote right after a quote inside a quoted
field is an escaped quote character. -/
theorem csv_step_afterQuote_quote (rest : List Char) (facc : List Char)
    (racc : List (List Char)) (rows : List (List (List Char))) :
    GetBooksData.csvParseAux .afterQuote ('"' :: rest) facc racc rows
      = GetBooksData.csvParseAux .quoted rest ('"' :: facc) racc rows := rfl

/-- The CSV reader consumes the quote-doubled encoding of a field's
content inside a quoted field, accumulating the original content. -/
theorem csvParseAux_quoted_run (cs : List Char) (rest : List Char)
    (facc : List Char) (racc : List (List Char)) (rows : List (List (List Char))) :
    GetBooksData.csvParseAux .quoted
        ((cs.flatMap (fun c => if c = '"' then ['"', '"'] else [c])) ++ rest) facc racc rows
      = GetBooksData.csvParseAux .quoted rest (cs.reverse ++ facc) racc rows := by
  induction cs generalizing facc with
  | nil => simp
  | cons c cs ih =>
      by_cases hq : c = '"'
      · subst hq
        simp only [List.flatMap_cons, reduceIte, List.cons_append, List.nil_append,
          List.append_assoc]
        rw [csv_step_quoted_quote, csv_step_afterQuote_quote]
        rw [ih ('"' :: facc)]
        simp
      · simp only [List.flatMap_cons, if_neg hq, List.cons_append, List.nil_append,
          List.singleton_append]
        rw [GetBooksData.csvParseAux]
        simp only [if_neg hq]
        rw [ih (c :: facc)]
        simp

/-- One reader step: a quote at the start of a field opens a quoted
field. -/
theorem csv_step_fieldStart_quote (rest : List Char) (facc : List Char)
    (racc : List (List Char)) (rows : List (List (List Char))) :
    GetBooksData.csvParseAux .fieldStart ('"' :: rest) facc racc rows
      = GetBooksData.csvParseAux .quoted rest [] racc rows := rfl

/-- One reader step: a delimiter at the start of a field yields an empty
field. -/
theorem csv_step_fieldStart_comma (rest : List Char) (facc : List Char)
    (racc : List (List Char)) (rows : List (List (List Char))) :
    GetBooksData.csvParseAux .fieldStart (',' :: rest) facc racc rows
      = GetBooksData.csvParseAux .fieldStart rest [] ([] :: racc) rows := rfl

/-- One reader step: a carriage return at the start of a field ends the
row with a final empty field. -/
theorem csv_step_fieldStart_cr (rest : List Char) (facc : List Char)
    (racc : List (List Char)) (rows : List (List (List Char))) :
    GetBooksData.csvParseAux .fieldStart ('\r' :: rest) facc racc rows
      = GetBooksData.csvParseAux .afterCR rest [] []
          ((([] : List Char) :: racc).reverse :: rows) := rfl

/-- One reader step: a delimiter ends an unquoted field. -/
theorem csv_step_unquoted_comma (rest : List Char) (facc : List Char)
    (racc : List (List Char)) (rows : List (List (List Char))) :
    GetBooksData.csvParseAux .unquoted (',' :: rest) facc racc rows
      = GetBooksData.csvParseAux .fieldStart rest [] (facc.reverse :: racc) rows := rfl

/-- One reader step: a carriage return ends an unquoted field and its
row. -/
theorem csv_step_unquoted_cr (rest : List Char) (facc : List Char)
    (racc : List (List Char)) (rows : List (List (List Char))) :
    GetBooksData.csvParseAux .unquoted ('\r' :: rest) facc racc rows
      = GetBooksData.csvParseAux .afterCR rest [] []
          ((facc.reverse :: racc).reverse :: rows) := rfl

/-- One reader step: a delimiter after the closing quote ends the quoted
field. -/
theorem csv_step_afterQuote_comma (rest : List Char) (facc : List Char)
    (racc : List (List Char)) (rows : List (List (List Char))) :
    GetBooksData.csvParseAux .afterQuote (',' :: rest) facc racc rows
      = GetBooksData.csvParseAux .fieldStart rest [] (facc.reverse :: racc) rows := rfl

/-- One reader step: a carriage return after the closing quote ends the
quoted field and its row. -/
theorem csv_step_afterQuote_cr (rest : List Char) (facc : List Char)
    (racc : List (List Char)) (rows : List (List (List Char))) :
    GetBooksData.csvParseAux .afterQuote ('\r' :: rest) facc racc rows
      = GetBooksData.csvParseAux .afterCR rest [] []
          ((facc.reverse :: racc).reverse :: rows) := rfl

/-- One reader step: the line feed of a `\r\n` terminator starts the next
row. -/
theorem csv_step_afterCR_lf (rest : List Char) (facc : List Char)
    (racc : List (List Char)) (rows : List (List (List Char))) :
    GetBooksData.csvParseAux .afterCR ('\n' :: rest) facc racc rows
      = GetBooksData.csvParseAux .fieldStart rest [] [] rows := rfl

/-- Reading one encoded field followed by a delimiter, from the start of a
field: the decoded field is pushed onto the current row. -/
theorem csvParseAux_field_comma (f : List Char) (rest : List Char)
    (racc : List (List Char)) (rows : List (List (List Char))) :
    GetBooksData.csvParseAux .fieldStart (GetBooksData.encodeField f ++ ',' :: rest)
        [] racc rows
      = GetBooksData.csvParseAux .fieldStart rest [] (f :: racc) rows := by
  by_cases hq : f.any GetBooksData.isCsvSpecial
  · simp only [GetBooksData.encodeField, if_pos hq, List.cons_append, List.append_assoc,
      List.singleton_append, List.nil_append]
    rw [csv_step_fieldStart_quote]
    rw [csvParseAux_quoted_run f ('"' :: ',' :: rest) [] racc rows]
    rw [csv_step_quoted_quote, csv_step_afterQuote_comma]
    simp
  · have h0 : f.any GetBooksData.isCsvSpecial = false := by
      cases hf : f.any GetBooksData.isCsvSpecial
      · rfl
      · exact absurd hf hq
    have hns : ∀ c ∈ f, GetBooksData.isCsvSpecial c = false := by
      intro c hc
      simpa using List.any_eq_false.mp h0 c hc
    simp only [GetBooksData.encodeField, if_neg hq]
    cases f with
    | nil =>
        rw [List.nil_append, csv_step_fieldStart_comma]
    | cons c cs =>
        have hc := hns c (by simp)
        simp only [GetBooksData.isCsvSpecial, Bool.or_eq_false_iff,
          decide_eq_false_iff_not] at hc
        obtain ⟨⟨⟨h1, h2⟩, h3⟩, h4⟩ := hc
        rw [List.cons_append, GetBooksData.csvParseAux]
        simp only [if_neg h1, if_neg h2, if_neg h3, if_neg h4]
        rw [csvParseAux_unquoted_run cs (fun x hx => hns x (by simp [hx]))
          (',' :: rest) [c] racc rows]
        rw [csv_step_unquoted_comma]
        simp

/-- Reading one encoded field followed by the `\r\n` terminator, from the
start of a field: the decoded field ends the current row. -/
theorem csvParseAux_field_crlf (f : List Char) (rest : List Char)
    (racc : List (List Char)) (rows : List (List (List Char))) :
    GetBooksData.csvParseAux .fieldStart
        (GetBooksData.encodeField f ++ '\r' :: '\n' :: rest) [] racc rows
      = GetBooksData.csvParseAux .fieldStart rest [] []
          (((f :: racc).reverse) :: rows) := by
  by_cases hq : f.any GetBooksData.isCsvSpecial
  · simp only [GetBooksData.encodeField, if_pos hq, List.cons_append, List.append_assoc,
      List.singleton_append, List.nil_append]
    rw [csv_step_fieldStart_quote]
    rw [csvParseAux_quoted_run f ('"' :: '\r' :: '\n' :: rest) [] racc rows]
    rw [csv_step_quoted_quote, csv_step_afterQuote_cr, csv_step_afterCR_lf]
    simp
  · have h0 : f.any GetBooksData.isCsvSpecial = false := by
      cases hf : f.any GetBooksData.isCsvSpecial
      · rfl
      · exact absurd hf hq
    have hns : ∀ c ∈ f, GetBooksData.isCsvSpecial c = false := by
      intro c hc
      simpa using List.any_eq_false.mp h0 c hc
    simp only [GetBooksData.encodeField, if_neg hq]
    cases f with
    | nil =>
        rw [List.nil_append, csv_step_fieldStart_cr, csv_step_afterCR_lf]
    | cons c cs =>
        have hc := hns c (by simp)
        simp only [GetBooksData.isCsvSpecial, Bool.or_eq_false_iff,
          decide_eq_false_iff_not] at hc
        obtain ⟨⟨⟨h1, h2⟩, h3⟩, h4⟩ := hc
        rw [List.cons_append, GetBooksData.csvParseAux]
        simp only [if_neg h1, if_neg h2, if_neg h3, if_neg h4]
        rw [csvParseAux_unquoted_run cs (fun x hx => hns x (by simp [hx]))
          ('\r' :: '\n' :: rest) [c] racc rows]
        rw [csv_step_unquoted_cr, csv_step_afterCR_lf]
        simp

/-- Reading one encoded row (nonempty field list): the decoded row,
prefixed by the fields already accumulated, is pushed onto the rows. -/
theorem csvParseAux_row (fs : List (List Char)) (hne : fs ≠ []) (rest : List Char)
    (racc : List (List Char)) (rows : List (List (List Char))) :
    GetBooksData.csvParseAux .fieldStart (GetBooksData.encodeRow fs ++ rest) [] racc rows
      = GetBooksData.csvParseAux .fieldStart rest [] []
          ((racc.reverse ++ fs) :: rows) := by
  induction fs generalizing racc with
  | nil => exact absurd rfl hne
  | cons f fs ih =>
      cases fs with
      | nil =>
          show GetBooksData.csvParseAux .fieldStart
              ((GetBooksData.encodeField f ++ ['\r', '\n']) ++ rest) [] racc rows = _
          rw [List.append_assoc, List.cons_append, List.singleton_append]
          rw [csvParseAux_field_crlf]
          simp
      | cons g gs =>
          show GetBooksData.csvParseAux .fieldStart
              ((GetBooksData.encodeField f ++ ',' :: GetBooksData.encodeRow (g :: gs))
                ++ rest) [] racc rows = _
          rw [List.append_assoc, List.cons_append]
          rw [csvParseAux_field_comma]
          rw [ih (by simp) (f :: racc)]
          simp

/-- Reading a whole encoded file of nonempty rows appends the decoded rows
to those already read. -/
theorem csvParseAux_file (rows : List (List (List Char)))
    (h : ∀ r ∈ rows, r ≠ []) (acc : List (List (List Char))) :
    GetBooksData.csvParseAux .fieldStart (GetBooksData.encodeCsv rows) [] [] acc
      = acc.reverse ++ rows := by
  induction rows generalizing acc with
  | nil =>
      simp [GetBooksData.encodeCsv, GetBooksData.csvParseAux, GetBooksData.csvFinish]
  | cons r rs ih =>
      show GetBooksData.csvParseAux .fieldStart
          ((r :: rs).flatMap GetBooksData.encodeRow) [] [] acc = _
      rw [List.flatMap_cons]
      rw [csvParseAux_row r (h r (by simp)) _ [] acc]
      rw [show rs.flatMap GetBooksData.encodeRow = GetBooksData.encodeCsv rs from rfl]
      rw [ih (fun x hx => h x (by simp [hx])) ((List.reverse [] ++ r) :: acc)]
      simp

/-- The parsed content of a `write_to_csv` file: the header row, then one
row per record in input order, each with the record's values in
`fieldnames` order. -/
theorem csvParse_write_to_csv (category_name : String)
    (books : List GetBooksData.BookInfo) :
    GetBooksData.csvParse (GetBooksData.write_to_csv category_name books).2
      = GetBooksData.fieldnames :: books.map GetBooksData.bookToRow := by
  have hne : ∀ r ∈ (GetBooksData.fieldnames :: books.map GetBooksData.bookToRow).map
      (fun row => row.map String.data), r ≠ [] := by
    intro r hr
    simp only [List.map_cons, List.mem_cons, List.mem_map] at hr
    rcases hr with hr | ⟨row, hrow, hr⟩
    · subst hr
      simp [GetBooksData.fieldnames]
    · obtain ⟨b, hb, hbr⟩ := hrow
      subst hbr
      subst hr
      simp [GetBooksData.bookToRow]
  have key := csvParseAux_file _ hne []
  show ((GetBooksData.csvParseAux .fieldStart
      (GetBooksData.encodeCsv ((GetBooksData.fieldnames :: books.map GetBooksData.bookToRow).map
        (fun row => row.map String.data))) [] [] []).map
      (fun (row : List (List Char)) => row.map (fun f => (⟨f⟩ : String)))) = _
  rw [key]
  simp only [List.reverse_nil, List.nil_append, List.map_map]
  rw [show ((fun (row : List (List Char)) => row.map (fun f => (⟨f⟩ : String)))
      ∘ fun (row : List String) => row.map String.data) = id from ?_]
  · simp
  · funext row
    simp only [Function.comp_apply, List.map_map, id_eq]
    rw [show ((fun (f : List Char) => (⟨f⟩ : String)) ∘ String.data) = id from ?_]
    · simp
    · funext s
      rfl

/-- C8: `write_to_csv` writes the header row even for an empty record
list, and writing then reading back yields the header plus exactly one row
per record, with identical field values, in input order and in the fixed
column order — hence `N + 1` rows for `N` records. -/
theorem C8_csv_header_and_roundtrip (category_name : String)
    (books : List GetBooksData.BookInfo) :
    GetBooksData.csvParse (GetBooksData.write_to_csv category_name books).2
      = GetBooksData.fieldnames :: books.map GetBooksData.bookToRow
    ∧ (GetBooksData.csvParse (GetBooksData.write_to_csv category_name books).2).length
      = books.length + 1 := by
  have h := csvParse_write_to_csv category_name books
  refine ⟨h, ?_⟩
  rw [h]
  simp

/-- C2 counterexample: the header row `write_to_csv` writes has ten
columns, not the eleven the claim lists — there is no product-page-URL
column — and the record extracted from a concrete well-formed page does
not contain the detail page URL among its field values. -/
theorem C2_counterexample_header_columns :
    ((GetBooksData.csvParse (GetBooksData.write_to_csv "travel" []).2).headI.length == 11)
        = false
    ∧ (GetBooksData.csvParse (GetBooksData.write_to_csv "travel" []).2).headI.length = 10
    ∧ GetBooksData.extract_book_info joinW originW "http://books.example/b1"
        (some pageFullW) none
      = .ok (some (GetBooksData.recordOf joinW originW "http://books.example/b1" pageFullW,
          []))
    ∧ ((GetBooksData.bookToRow (GetBooksData.recordOf joinW originW
        "http://books.example/b1" pageFullW)).contains "http://books.example/b1") = false := by
  have h := csvParse_write_to_csv "travel" []
  refine ⟨?_, ?_, rfl, by decide⟩
  · rw [h]
    rfl
  · rw [h]
    rfl

/-- C2 (amended): the header row has exactly ten columns, in this exact
order — title, upc, price_incl_tax, price_excl_tax, availability,
description, category, rating, image_url, image_path — and in particular
no product-page-URL column; the records serialize to rows of these ten
fields only. -/
theorem C2_amended_header_columns (category_name : String)
    (books : List GetBooksData.BookInfo) :
    (GetBooksData.csvParse (GetBooksData.write_to_csv category_name books).2).headI
      = ["title", "upc", "price_incl_tax", "price_excl_tax", "availability",
         "description", "category", "rating", "image_url", "image_path"]
    ∧ (GetBooksData.csvParse (GetBooksData.write_to_csv category_name books).2).headI.length
      = 10 := by
  have h := csvParse_write_to_csv category_name books
  rw [h]
  exact ⟨rfl, rfl⟩

/-- Witness for C2 (amended) at a concrete category name and empty record
list. -/
theorem C2_amended_witness :
    (GetBooksData.csvParse (GetBooksData.write_to_csv "mystery" []).2).headI
      = ["title", "upc", "price_incl_tax", "price_excl_tax", "availability",
         "description", "category", "rating", "image_url", "image_path"]
    ∧ (GetBooksData.csvParse (GetBooksData.write_to_csv "mystery" []).2).headI.length
      = 10 :=
  C2_amended_header_columns "mystery" []

/-- Witness for C8: one record whose fields contain the delimiter, the
quote character and a CRLF still round-trips, after the always-present
header row. -/
theorem C8_csv_witness :
    GetBooksData.csvParse (GetBooksData.write_to_csv "mystery" [bookW]).2
      = GetBooksData.fieldnames :: [bookW].map GetBooksData.bookToRow
    ∧ (GetBooksData.csvParse (GetBooksData.write_to_csv "mystery" [bookW]).2).length
      = ([bookW] : List GetBooksData.BookInfo).length + 1 :=
  C8_csv_header_and_roundtrip "mystery" [bookW]

/-- C9: the sanitizer removes every character of the reserved set, keeps the
other characters in order (the output is a sublist of the input), and is
idempotent. -/
theorem C9_sanitize_removes_and_idempotent (x : String) :
    ((GetBooksData.sanitize_filename x).data.all (fun c => !GetBooksData.invalidChar c) = true)
    ∧ (GetBooksData.sanitize_filename x).data.Sublist x.data
    ∧ GetBooksData.sanitize_filename (GetBooksData.sanitize_filename x)
        = GetBooksData.sanitize_filename x := by
  refine ⟨?_, ?_, ?_⟩
  · simp [GetBooksData.sanitize_filename, List.all_eq_true, List.mem_filter]
  · exact List.filter_sublist _
  · simp [GetBooksData.sanitize_filename, List.filter_filter]

/-- Witness for C9 at the concrete input `a<b?c/d`. -/
theorem C9_sanitize_witness :
    ((GetBooksData.sanitize_filename "a<b?c/d").data.all
        (fun c => !GetBooksData.invalidChar c) = true)
    ∧ (GetBooksData.sanitize_filename "a<b?c/d").data.Sublist ("a<b?c/d" : String).data
    ∧ GetBooksData.sanitize_filename (GetBooksData.sanitize_filename "a<b?c/d")
        = GetBooksData.sanitize_filename "a<b?c/d" :=
  C9_sanitize_removes_and_idempotent "a<b?c/d"

/-- C10: the two copies of `sanitize_filename` and of `extract_soup` in
`utils.py` and `get_books_data.py` are extensionally equal: same result on
every input string, and on every URL fetch outcome for every parser. -/
theorem C10_duplicated_helpers_equal :
    (∀ s : String, Utils.sanitize_filename s = GetBooksData.sanitize_filename s)
    ∧ ∀ (Doc : Type) (parse : Bytes → Doc) (resp : Option HttpResp),
        Utils.extract_soup parse resp = GetBooksData.extract_soup parse resp :=
  ⟨fun _ => rfl, fun _ _ _ => rfl⟩

end Scraping
